import Mathlib

/-!
# Chronos: timer pairs, wheel constants and the timer handler loop

A shallow embedding of `include/timer_store.h` (the `TimerPair` value, its
hash, and the wheel constants of `TimerStore`) and of
`src/main/timer_handler.cpp` (the handler thread and the ingestion calls).

Stateful code is written in state-passing style.  Every call the handler
makes to a collaborator (mutex, condition variable, store, callback) is
appended to a log together with the value of the "mutex held" flag at the
moment of the call.
-/

namespace Chronos

/-! ## Data model -/

/-- Modelled from the spec: the `Timer` record, declared in `timer.h`, which is
not among the sources.  The fields are those the scheduler reads (spec §3):
a 64-bit `id`, a 32-bit `pop_time`, the `cluster_view_id`, the tombstone flag
returned by `is_tombstone()`, and the integer `sequence_number`. -/
structure Timer where
  id : Nat
  pop_time : Nat
  cluster_view_id : String
  is_tombstone : Bool
  sequence_number : Int
deriving DecidableEq, Repr

/-- The `TimerPair` struct.  A `Timer*` member is `none` when it is `NULL` and
`some t` when it points to the timer `t`. -/
structure TimerPair where
  active_timer : Option Timer
  information_timer : Option Timer
deriving DecidableEq, Repr

/-- The default constructor `TimerPair()`: both members are `NULL`. -/
def TimerPair.default : TimerPair :=
  { active_timer := none, information_timer := none }

/-- The body of `TimerPair::operator==`, one `if` after the other. -/
def TimerPair.op_eq (self other : TimerPair) : Bool :=
  if self.active_timer.isNone && self.information_timer.isNone &&
      other.active_timer.isNone && other.information_timer.isNone then
    true
  else
    match self.active_timer, self.information_timer,
          other.active_timer, other.information_timer with
    | some a, some i, some oa, some oi => (a.id == oa.id) && (i.id == oi.id)
    | some a, none, some oa, none => a.id == oa.id
    | none, some i, none, some oi => i.id == oi.id
    | _, _, _, _ => false

/-- The body of `TimerPair::operator<`.  The result is `none` when the code
dereferences `active_timer` of the left operand while it is `NULL`. -/
def TimerPair.op_lt (self other : TimerPair) : Option Bool :=
  match other.active_timer with
  | none => some true
  | some oa =>
    match self.active_timer with
    | none => none
    | some a => some (decide (a.id < oa.id))

/-- The specialisation `std::hash<TimerPair>`; `hash_u64` stands for the
library's `std::hash<uint64_t>`. -/
def TimerPair.hash (hash_u64 : Nat → Nat) (tp : TimerPair) : Nat :=
  match tp.active_timer with
  | some a => hash_u64 a.id
  | none => 0

/-! ## Wheel constants of `TimerStore`

The argument `unit_test` is `true` when the header is compiled with
`UNIT_TEST` defined. -/

def SHORT_WHEEL_RESOLUTION_MS (unit_test : Bool) : Int :=
  if unit_test then 256 else 8

def SHORT_WHEEL_NUM_BUCKETS (unit_test : Bool) : Int :=
  if unit_test then 4 else 128

def LONG_WHEEL_NUM_BUCKETS (unit_test : Bool) : Int :=
  if unit_test then 2048 else 4096

def SHORT_WHEEL_PERIOD_MS (unit_test : Bool) : Int :=
  SHORT_WHEEL_RESOLUTION_MS unit_test * SHORT_WHEEL_NUM_BUCKETS unit_test

def LONG_WHEEL_RESOLUTION_MS (unit_test : Bool) : Int :=
  SHORT_WHEEL_PERIOD_MS unit_test

def LONG_WHEEL_PERIOD_MS (unit_test : Bool) : Int :=
  LONG_WHEEL_RESOLUTION_MS unit_test * LONG_WHEEL_NUM_BUCKETS unit_test

/-- The range of a signed 32-bit `int`. -/
def fits_int32 (v : Int) : Prop := -2147483648 ≤ v ∧ v ≤ 2147483647

/-! ## The timer handler (`timer_handler.cpp`) -/

/-- A `struct timespec`: seconds (`time_t tv_sec`) and nanoseconds
(`long tv_nsec`), both signed 64-bit on the 64-bit Linux targets. -/
structure Timespec where
  tv_sec : Int
  tv_nsec : Int
deriving DecidableEq, Repr

/-- The value of `ETIMEDOUT` in `errno.h` on Linux.  POSIX requires every
error number to be positive. -/
def ETIMEDOUT : Int := 110

/-- The value of `EINVAL` in `errno.h`, one of the error numbers
`pthread_cond_timedwait` is documented to return. -/
def EINVAL : Int := 22

/-- A call the handler makes: to one of its collaborators (mutex, condition
variable, store, callback, `delete`, `exit`) or, for `pop_timers`, to its own
`pop` on a batch.  Uses of the logging macro `LOG_DEBUG` are not recorded. -/
inductive Event where
  | mutex_lock
  | mutex_unlock
  | store_add_timer (timer : Timer)
  | store_update_replica_tracker_for_timer (id : Nat) (replica_index : Int)
  | store_get_timers_for_node (request_node : String) (max_responses : Int)
      (cluster_view_id : String)
  | store_get_next_timers
  | pop_timers (timers : List Timer)
  | callback_perform (timer : Timer)
  | delete_timer (timer : Timer)
  | cond_timedwait (deadline : Timespec)
  | cond_signal
  | exit (status : Int)
deriving DecidableEq, Repr

/-- A logged call: the event and whether the calling thread held `_mutex`
when it made the call. -/
structure Entry where
  held : Bool
  ev : Event
deriving DecidableEq, Repr

/-- The part of a `TimerHandler` the claims are about: whether the executing
thread holds `_mutex`, the member `_nearest_new_timer`, and the log of calls
made so far. -/
structure Handler where
  mutex_held : Bool
  nearest_new_timer : Int
  log : List Entry
deriving DecidableEq, Repr

/-- The state the constructor leaves: `_nearest_new_timer(-1)`, the mutex
initialised and free. -/
def Handler.init : Handler :=
  { mutex_held := false, nearest_new_timer := -1, log := [] }

/-- Append a call to the log, tagged with the current mutex flag. -/
def Handler.emit (h : Handler) (e : Event) : Handler :=
  { h with log := h.log ++ [⟨h.mutex_held, e⟩] }

/-- The call `pthread_mutex_lock(&_mutex)`. -/
def Handler.lock (h : Handler) : Handler :=
  { h.emit Event.mutex_lock with mutex_held := true }

/-- The call `pthread_mutex_unlock(&_mutex)`. -/
def Handler.unlock (h : Handler) : Handler :=
  { h.emit Event.mutex_unlock with mutex_held := false }

/-- `TimerHandler::add_timer`. -/
def add_timer (h : Handler) (timer : Timer) : Handler :=
  let h := h.lock
  let h := h.emit (Event.store_add_timer timer)
  h.unlock

/-- `TimerHandler::update_replica_tracker_for_timer`. -/
def update_replica_tracker_for_timer (h : Handler) (id : Nat) (replica_index : Int) :
    Handler :=
  let h := h.lock
  let h := h.emit (Event.store_update_replica_tracker_for_timer id replica_index)
  h.unlock

/-- `TimerHandler::get_timers_for_node`; `store_rc` is the `HTTPCode` the store
answers with, which the handler returns.  The body the store writes into
`get_response` is left out. -/
def get_timers_for_node (h : Handler) (request_node : String) (max_responses : Int)
    (cluster_view_id : String) (store_rc : Int) : Handler × Int :=
  let h := h.lock
  let h := h.emit
    (Event.store_get_timers_for_node request_node max_responses cluster_view_id)
  let rc := store_rc
  let h := h.unlock
  (h, rc)

/-- `TimerHandler::pop(Timer*)`.  The argument `upd` is the hook
`Timer::update_cluster_information`, defined in `timer.cpp`, which is not among
the sources. -/
def pop_timer (upd : Timer → Timer) (h : Handler) (timer : Timer) : Handler :=
  if timer.is_tombstone then
    h.emit (Event.delete_timer timer)
  else
    let timer := { timer with sequence_number := timer.sequence_number + 1 }
    let timer := upd timer
    h.emit (Event.callback_perform timer)

/-- `TimerHandler::pop(std::unordered_set<Timer*>&)`: pops every timer of the
set, in the set's iteration order, and clears the set.  Returns the handler and
the set as the caller sees it afterwards. -/
def pop (upd : Timer → Timer) (h : Handler) (timers : List Timer) :
    Handler × List Timer :=
  let h := h.emit (Event.pop_timers timers)
  (timers.foldl (pop_timer upd) h, [])

/-- The value a signed 64-bit variable (`time_t` and `long`, the types of
`tv_sec` and `tv_nsec`) holds after an arithmetic result `v`: the result
reduced modulo `2^64` into the range of the type. -/
def wrap_int64 (v : Int) : Int :=
  (v + 9223372036854775808) % 18446744073709551616 - 9223372036854775808

/-- The deadline `next_pop` which `run` computes from the clock reading when
the batch is empty.  The additions and the subtraction are done in the 64-bit
members of the `timespec`. -/
def wait_deadline (now : Timespec) : Timespec :=
  if now.tv_nsec < 990 * 1000 * 1000 then
    { now with tv_nsec := wrap_int64 (now.tv_nsec + 10 * 1000 * 1000) }
  else
    { tv_sec := wrap_int64 (now.tv_sec + 1),
      tv_nsec := wrap_int64 (now.tv_nsec - 990 * 1000 * 1000) }

/-- The test `rc < 0 && rc != ETIMEDOUT` which `run` applies to the return
code of `_cond->timedwait`. -/
def timedwait_fatal (rc : Int) : Bool :=
  decide (rc < 0) && (rc != ETIMEDOUT)

/-- What the handler thread is doing. -/
inductive Outcome where
  | running
  | returned
  | exited (status : Int)
deriving DecidableEq, Repr

/-- The state of the thread executing `run`: the handler, the local set
`next_timers`, and whether the thread is still in the loop. -/
structure RunState where
  h : Handler
  next_timers : List Timer
  outcome : Outcome
deriving DecidableEq, Repr

/-- What the environment supplies to one turn of the loop: the value of
`_terminate` read by the loop test, the reading of `clock_gettime`, the return
code of `timedwait`, and the timers the store puts into `next_timers` in the
call of `get_next_timers` that ends the turn. -/
structure Turn where
  terminate : Bool
  clock : Timespec
  rc : Int
  next : List Timer
deriving DecidableEq, Repr

/-- The call `_store->get_next_timers(next_timers)`: the store adds `next` to
the set. -/
def get_next_timers (s : RunState) (next : List Timer) : RunState :=
  { s with h := s.h.emit Event.store_get_next_timers,
           next_timers := s.next_timers ++ next }

/-- The body of the `while (!_terminate)` loop of `run`. -/
def loop_body (upd : Timer → Timer) (s : RunState) (i : Turn) : RunState :=
  if !s.next_timers.isEmpty then
    let h := s.h.unlock
    let r := pop upd h s.next_timers
    let h := r.1.lock
    get_next_timers { s with h := h, next_timers := r.2 } i.next
  else
    let next_pop := wait_deadline i.clock
    let h := s.h.emit (Event.cond_timedwait next_pop)
    if timedwait_fatal i.rc then
      { s with h := h.emit (Event.exit 2), outcome := Outcome.exited 2 }
    else
      get_next_timers { s with h := h } i.next

/-- The code of `run` after the loop: delete the timers of the batch, clear
it, unlock and return. -/
def run_exit (s : RunState) : RunState :=
  let h := s.next_timers.foldl (fun h t => h.emit (Event.delete_timer t)) s.h
  { h := h.unlock, next_timers := [], outcome := Outcome.returned }

/-- The `while (!_terminate)` loop of `run`, driven by what the environment
supplies turn by turn.  When the script ends the thread is still in the loop
(`Outcome.running`). -/
def run_loop (upd : Timer → Timer) : RunState → List Turn → RunState
  | s, [] => s
  | s, i :: rest =>
    if i.terminate then
      run_exit s
    else
      let s := loop_body upd s i
      match s.outcome with
      | Outcome.running => run_loop upd s rest
      | _ => s

/-- `TimerHandler::run`, started on a fresh handler; `first` is what the store
returns to the call of `get_next_timers` before the loop. -/
def run (upd : Timer → Timer) (first : List Timer) (script : List Turn) : RunState :=
  let h := Handler.init.lock
  let s := get_next_timers { h := h, next_timers := [], outcome := Outcome.running } first
  run_loop upd s script

/-! ### Observations on a log -/

/-- The timers passed to `Callback::perform`, in order. -/
def performed (log : List Entry) : List Timer :=
  log.filterMap fun e =>
    match e.ev with
    | Event.callback_perform t => some t
    | _ => none

/-- The timers deleted, in order. -/
def deleted (log : List Entry) : List Timer :=
  log.filterMap fun e =>
    match e.ev with
    | Event.delete_timer t => some t
    | _ => none

/-- The events of a log. -/
def events (log : List Entry) : List Event := log.map Entry.ev

/-- The part of the log of `h1` written after `h0`. -/
def log_since (h0 h1 : Handler) : List Entry := h1.log.drop h0.log.length

/-- A call into the timer store. -/
def Event.is_store_call : Event → Bool
  | Event.store_add_timer _ => true
  | Event.store_update_replica_tracker_for_timer _ _ => true
  | Event.store_get_timers_for_node _ _ _ => true
  | Event.store_get_next_timers => true
  | _ => false

/-- A dispatch: a call of `TimerHandler::pop` on a batch, or of
`Callback::perform`. -/
def Event.is_dispatch : Event → Bool
  | Event.pop_timers _ => true
  | Event.callback_perform _ => true
  | _ => false

/-- The mutex discipline of one logged call: the store is called with the
mutex held, a dispatch is made with the mutex released. -/
def Entry.disciplined (e : Entry) : Prop :=
  (e.ev.is_store_call = true → e.held = true) ∧
  (e.ev.is_dispatch = true → e.held = false)

/-- The log entry `pop(Timer*)` writes for a timer: a tombstone is deleted,
any other timer is passed to the callback with its sequence number incremented
and its cluster information updated. -/
def pop_entry (upd : Timer → Timer) (held : Bool) (t : Timer) : Entry :=
  if t.is_tombstone then ⟨held, Event.delete_timer t⟩
  else ⟨held, Event.callback_perform
    (upd { t with sequence_number := t.sequence_number + 1 })⟩

/-- The batch the store returned to the last call of `get_next_timers`: the
one before the loop when no turn was run, else the one that ended the last
turn. -/
def last_batch : List Timer → List Turn → List Timer
  | first, [] => first
  | _, i :: rest => last_batch i.next rest

/-- A timer used in the worked examples. -/
def sample_timer : Timer :=
  { id := 1, pop_time := 0, cluster_view_id := "view-1", is_tombstone := false,
    sequence_number := 7 }

/-- A tombstone used in the worked examples. -/
def sample_tombstone : Timer :=
  { id := 2, pop_time := 0, cluster_view_id := "view-1", is_tombstone := true,
    sequence_number := 3 }

/-- A hook used in the worked examples: it rewrites the view id. -/
def sample_upd (t : Timer) : Timer := { t with cluster_view_id := "view-2" }


/-! ## Timer pairs -/

/-- C1 (as stated, refuted): two default-constructed pairs, which both have
neither timer, compare equal under `operator==`. -/
theorem op_eq_both_empty_is_true :
    TimerPair.op_eq TimerPair.default TimerPair.default = true := by
  rfl

/-- C1 (amended): `operator==` returns true exactly when both pairs have
neither timer, or both have both timers and the active ids and the information
ids match, or both have only an active timer and the active ids match, or both
have only an information timer and the information ids match. -/
theorem op_eq_true_iff (a b : TimerPair) :
    TimerPair.op_eq a b = true ↔
      (a.active_timer = none ∧ a.information_timer = none ∧
        b.active_timer = none ∧ b.information_timer = none) ∨
      (∃ x i y j, a.active_timer = some x ∧ a.information_timer = some i ∧
        b.active_timer = some y ∧ b.information_timer = some j ∧
        x.id = y.id ∧ i.id = j.id) ∨
      (∃ x y, a.active_timer = some x ∧ a.information_timer = none ∧
        b.active_timer = some y ∧ b.information_timer = none ∧ x.id = y.id) ∨
      (∃ i j, a.active_timer = none ∧ a.information_timer = some i ∧
        b.active_timer = none ∧ b.information_timer = some j ∧ i.id = j.id) := by
  obtain ⟨aa, ai⟩ := a
  obtain ⟨ba, bi⟩ := b
  cases aa <;> cases ai <;> cases ba <;> cases bi <;>
    simp [TimerPair.op_eq]

/-- C9: the hash is consistent with `operator==`: pairs that compare equal
have the same hash, whatever their shape and whatever `std::hash<uint64_t>`
is. -/
theorem hash_eq_of_op_eq (hash_u64 : Nat → Nat) (a b : TimerPair)
    (hab : TimerPair.op_eq a b = true) :
    TimerPair.hash hash_u64 a = TimerPair.hash hash_u64 b := by
  obtain ⟨aa, ai⟩ := a
  obtain ⟨ba, bi⟩ := b
  cases aa <;> cases ai <;> cases ba <;> cases bi <;>
    simp_all [TimerPair.op_eq, TimerPair.hash]

/-- C9, at two pairs with different timers but the same ids. -/
theorem hash_eq_of_op_eq_witness :
    TimerPair.op_eq ⟨some sample_timer, none⟩
        ⟨some { sample_timer with pop_time := 9 }, none⟩ = true ∧
      TimerPair.hash (fun n => n * 31 + 7) ⟨some sample_timer, none⟩ =
        TimerPair.hash (fun n => n * 31 + 7)
          ⟨some { sample_timer with pop_time := 9 }, none⟩ :=
  ⟨by rfl, hash_eq_of_op_eq _ _ _ (by rfl)⟩

/-- C10 (as stated, refuted): `operator<` is not irreflexive: a
default-constructed pair is less than itself. -/
theorem op_lt_not_irreflexive :
    TimerPair.op_lt TimerPair.default TimerPair.default = some true := by
  rfl

/-- C10 (amended): `operator<` returns true whenever the right operand has no
active timer; on pairs that both have an active timer it is defined, agrees
with the order of the active ids, is irreflexive and is asymmetric. -/
theorem op_lt_strict_on_active (a b : TimerPair) (x y : Timer)
    (ha : a.active_timer = some x) (hb : b.active_timer = some y) :
    (∀ c : TimerPair, ∀ i : Option Timer,
        TimerPair.op_lt c ⟨none, i⟩ = some true) ∧
      TimerPair.op_lt a b = some (decide (x.id < y.id)) ∧
      (TimerPair.op_lt a b = some true ↔ x.id < y.id) ∧
      TimerPair.op_lt a a = some false ∧
      ¬ (TimerPair.op_lt a b = some true ∧ TimerPair.op_lt b a = some true) := by
  refine ⟨fun c i => by simp [TimerPair.op_lt], ?_, ?_, ?_, ?_⟩
  · simp [TimerPair.op_lt, ha, hb]
  · simp [TimerPair.op_lt, ha, hb]
  · simp [TimerPair.op_lt, ha]
  · simp only [TimerPair.op_lt, ha, hb, Option.some.injEq, decide_eq_true_eq]
    omega

/-- C10 (amended), at two pairs with active ids 1 and 2. -/
theorem op_lt_strict_on_active_witness :
    (⟨some sample_timer, none⟩ : TimerPair).active_timer = some sample_timer ∧
      (⟨some sample_tombstone, none⟩ : TimerPair).active_timer =
        some sample_tombstone ∧
      TimerPair.op_lt ⟨some sample_timer, none⟩ ⟨some sample_tombstone, none⟩ =
        some (decide (sample_timer.id < sample_tombstone.id)) ∧
      TimerPair.op_lt ⟨some sample_timer, none⟩ ⟨some sample_timer, none⟩ =
        some false ∧
      ¬ (TimerPair.op_lt ⟨some sample_timer, none⟩ ⟨some sample_tombstone, none⟩ =
          some true ∧
        TimerPair.op_lt ⟨some sample_tombstone, none⟩ ⟨some sample_timer, none⟩ =
          some true) :=
  ⟨rfl, rfl,
    (op_lt_strict_on_active ⟨some sample_timer, none⟩ ⟨some sample_tombstone, none⟩
      sample_timer sample_tombstone rfl rfl).2.1,
    (op_lt_strict_on_active ⟨some sample_timer, none⟩ ⟨some sample_tombstone, none⟩
      sample_timer sample_tombstone rfl rfl).2.2.2.1,
    (op_lt_strict_on_active ⟨some sample_timer, none⟩ ⟨some sample_tombstone, none⟩
      sample_timer sample_tombstone rfl rfl).2.2.2.2⟩

/-! ## Wheel constants -/

/-- C8: in both build configurations the long-wheel resolution is the short
resolution times the number of short buckets, the long period is the long
resolution times the number of long buckets, and there is at least one long
bucket; the production values are 8, 128, 1024, 1024, 4096 and 4194304; and
every constant of either configuration fits in a signed 32-bit int. -/
theorem wheel_constants_relation :
    (∀ ut : Bool,
      LONG_WHEEL_RESOLUTION_MS ut =
          SHORT_WHEEL_RESOLUTION_MS ut * SHORT_WHEEL_NUM_BUCKETS ut ∧
        LONG_WHEEL_PERIOD_MS ut =
          LONG_WHEEL_RESOLUTION_MS ut * LONG_WHEEL_NUM_BUCKETS ut ∧
        1 ≤ LONG_WHEEL_NUM_BUCKETS ut ∧
        fits_int32 (SHORT_WHEEL_RESOLUTION_MS ut) ∧
        fits_int32 (SHORT_WHEEL_NUM_BUCKETS ut) ∧
        fits_int32 (LONG_WHEEL_NUM_BUCKETS ut) ∧
        fits_int32 (SHORT_WHEEL_PERIOD_MS ut) ∧
        fits_int32 (LONG_WHEEL_RESOLUTION_MS ut) ∧
        fits_int32 (LONG_WHEEL_PERIOD_MS ut) ∧
        LONG_WHEEL_PERIOD_MS ut < 2 ^ 31) ∧
      SHORT_WHEEL_RESOLUTION_MS false = 8 ∧
      SHORT_WHEEL_NUM_BUCKETS false = 128 ∧
      SHORT_WHEEL_PERIOD_MS false = 1024 ∧
      LONG_WHEEL_RESOLUTION_MS false = 1024 ∧
      LONG_WHEEL_NUM_BUCKETS false = 4096 ∧
      LONG_WHEEL_PERIOD_MS false = 4194304 := by
  refine ⟨fun ut => ?_, ?_⟩
  · cases ut <;>
      simp [LONG_WHEEL_PERIOD_MS, LONG_WHEEL_RESOLUTION_MS, SHORT_WHEEL_PERIOD_MS,
        SHORT_WHEEL_RESOLUTION_MS, SHORT_WHEEL_NUM_BUCKETS, LONG_WHEEL_NUM_BUCKETS,
        fits_int32]
  · simp [LONG_WHEEL_PERIOD_MS, LONG_WHEEL_RESOLUTION_MS, SHORT_WHEEL_PERIOD_MS,
      SHORT_WHEEL_RESOLUTION_MS, SHORT_WHEEL_NUM_BUCKETS, LONG_WHEEL_NUM_BUCKETS]


/-! ## The handler: basic facts -/

theorem add_timer_log (h : Handler) (t : Timer) :
    (add_timer h t).log =
      h.log ++ [⟨h.mutex_held, Event.mutex_lock⟩, ⟨true, Event.store_add_timer t⟩,
        ⟨true, Event.mutex_unlock⟩] := by
  simp [add_timer, Handler.lock, Handler.unlock, Handler.emit]

theorem log_since_append (h0 h1 : Handler) (l : List Entry)
    (hl : h1.log = h0.log ++ l) : log_since h0 h1 = l := by
  simp [log_since, hl]

theorem foldl_pop_timer (upd : Timer → Timer) (timers : List Timer) (h : Handler) :
    (timers.foldl (pop_timer upd) h).log =
        h.log ++ timers.map (pop_entry upd h.mutex_held) ∧
      (timers.foldl (pop_timer upd) h).mutex_held = h.mutex_held ∧
      (timers.foldl (pop_timer upd) h).nearest_new_timer = h.nearest_new_timer := by
  induction timers generalizing h with
  | nil => simp
  | cons t ts ih =>
    obtain ⟨h1, h2, h3⟩ := ih (pop_timer upd h t)
    have hm : (pop_timer upd h t).mutex_held = h.mutex_held := by
      unfold pop_timer; split <;> rfl
    have hn : (pop_timer upd h t).nearest_new_timer = h.nearest_new_timer := by
      unfold pop_timer; split <;> rfl
    have hl : (pop_timer upd h t).log = h.log ++ [pop_entry upd h.mutex_held t] := by
      unfold pop_timer pop_entry; split <;> simp [Handler.emit]
    refine ⟨?_, ?_, ?_⟩
    · simp [List.foldl_cons, h1, hl, hm]
    · simp [List.foldl_cons, h2, hm]
    · simp [List.foldl_cons, h3, hn]

theorem pop_log (upd : Timer → Timer) (h : Handler) (timers : List Timer) :
    (pop upd h timers).1.log =
        h.log ++ ⟨h.mutex_held, Event.pop_timers timers⟩ ::
          timers.map (pop_entry upd h.mutex_held) ∧
      (pop upd h timers).1.mutex_held = h.mutex_held ∧
      (pop upd h timers).2 = [] := by
  obtain ⟨h1, h2, _⟩ := foldl_pop_timer upd timers (h.emit (Event.pop_timers timers))
  refine ⟨?_, ?_, rfl⟩
  · simp only [pop, h1]; simp [Handler.emit]
  · simp only [pop, h2]; simp [Handler.emit]

theorem performed_map_pop_entry (upd : Timer → Timer) (held : Bool)
    (timers : List Timer) :
    performed (timers.map (pop_entry upd held)) =
      (timers.filter (fun t => !t.is_tombstone)).map
        (fun t => upd { t with sequence_number := t.sequence_number + 1 }) := by
  induction timers with
  | nil => rfl
  | cons t ts ih =>
    unfold performed at ih ⊢
    cases ht : t.is_tombstone <;>
      simp [pop_entry, ht, List.filterMap_cons, List.filter_cons, ih]

theorem deleted_map_pop_entry (upd : Timer → Timer) (held : Bool)
    (timers : List Timer) :
    deleted (timers.map (pop_entry upd held)) =
      timers.filter (fun t => t.is_tombstone) := by
  induction timers with
  | nil => rfl
  | cons t ts ih =>
    unfold deleted at ih ⊢
    cases ht : t.is_tombstone <;>
      simp [pop_entry, ht, List.filterMap_cons, List.filter_cons, ih]


/-! ## Dispatch of a batch -/

/-- C2: `pop` on a batch calls `Callback::perform` once for each timer that is
not a tombstone, in the batch's order, with that timer's sequence number one
greater than on entry; no tombstone is passed to the callback: the tombstones
are deleted as they came, their sequence numbers untouched; and the batch is
left empty.  The hook `update_cluster_information` is assumed to leave the
sequence number alone. -/
theorem pop_performs_live_timers_once (upd : Timer → Timer)
    (hupd : ∀ t, (upd t).sequence_number = t.sequence_number)
    (h : Handler) (timers : List Timer) :
    List.Forall₂
        (fun t p => t.is_tombstone = false ∧
          p = upd { t with sequence_number := t.sequence_number + 1 } ∧
          p.sequence_number = t.sequence_number + 1)
        (timers.filter (fun t => !t.is_tombstone))
        (performed (log_since h (pop upd h timers).1)) ∧
      (performed (log_since h (pop upd h timers).1)).length =
        timers.countP (fun t => !t.is_tombstone) ∧
      deleted (log_since h (pop upd h timers).1) =
        timers.filter (fun t => t.is_tombstone) ∧
      (pop upd h timers).2 = [] := by
  obtain ⟨hl, _, hc⟩ := pop_log upd h timers
  have hs := log_since_append h (pop upd h timers).1 _ hl
  have hp : performed (log_since h (pop upd h timers).1) =
      (timers.filter (fun t => !t.is_tombstone)).map
        (fun t => upd { t with sequence_number := t.sequence_number + 1 }) := by
    rw [hs, ← performed_map_pop_entry upd h.mutex_held timers]
    simp [performed, List.filterMap_cons]
  have hd : deleted (log_since h (pop upd h timers).1) =
      timers.filter (fun t => t.is_tombstone) := by
    rw [hs, ← deleted_map_pop_entry upd h.mutex_held timers]
    simp [deleted, List.filterMap_cons]
  refine ⟨?_, ?_, hd, hc⟩
  · rw [hp, List.forall₂_map_right_iff]
    apply List.forall₂_same.mpr
    intro t ht
    have hlive : t.is_tombstone = false := by
      simpa using (List.mem_filter.mp ht).2
    exact ⟨hlive, rfl, by rw [hupd]⟩
  · rw [hp, List.length_map, List.countP_eq_length_filter]

/-- C2, on a batch of one live timer and one tombstone. -/
theorem pop_performs_live_timers_once_witness :
    (∀ t, (sample_upd t).sequence_number = t.sequence_number) ∧
      List.Forall₂
        (fun t p => t.is_tombstone = false ∧
          p = sample_upd { t with sequence_number := t.sequence_number + 1 } ∧
          p.sequence_number = t.sequence_number + 1)
        ([sample_timer, sample_tombstone].filter (fun t => !t.is_tombstone))
        (performed (log_since Handler.init
          (pop sample_upd Handler.init [sample_timer, sample_tombstone]).1)) ∧
      (performed (log_since Handler.init
          (pop sample_upd Handler.init [sample_timer, sample_tombstone]).1)).length =
        [sample_timer, sample_tombstone].countP (fun t => !t.is_tombstone) ∧
      deleted (log_since Handler.init
          (pop sample_upd Handler.init [sample_timer, sample_tombstone]).1) =
        [sample_timer, sample_tombstone].filter (fun t => t.is_tombstone) ∧
      (pop sample_upd Handler.init [sample_timer, sample_tombstone]).2 = [] :=
  ⟨fun _ => rfl,
    pop_performs_live_timers_once sample_upd (fun _ => rfl) Handler.init
      [sample_timer, sample_tombstone]⟩

/-! ## The idle wait -/

/-- C6 (the code at the failing input): the test on the return code of
`timedwait` is true exactly for negative codes, so the positive error number
`EINVAL` is not fatal: the turn writes no `exit`, and the thread goes on to
the next call of `get_next_timers` and stays in the loop. -/
theorem timedwait_einval_not_fatal :
    (∀ rc : Int, timedwait_fatal rc = true ↔ rc < 0) ∧
      timedwait_fatal EINVAL = false ∧
      (run sample_upd [] [⟨false, ⟨5, 0⟩, EINVAL, []⟩]).outcome = Outcome.running ∧
      events (run sample_upd [] [⟨false, ⟨5, 0⟩, EINVAL, []⟩]).h.log =
        [Event.mutex_lock, Event.store_get_next_timers,
          Event.cond_timedwait ⟨5, 10000000⟩, Event.store_get_next_timers] := by
  refine ⟨?_, by decide, by decide, by decide⟩
  intro rc
  simp only [timedwait_fatal, ETIMEDOUT, Bool.and_eq_true, decide_eq_true_eq, bne_iff_ne]
  constructor
  · exact fun h => h.1
  · intro h; exact ⟨h, by omega⟩

/-! ## Insertion -/

/-- C5 (as stated, refuted): no call of `add_timer`, on any handler and for
any timer, signals the condition variable. -/
theorem add_timer_never_signals :
    ¬ ∃ (h : Handler) (t : Timer),
      Event.cond_signal ∈ events (log_since h (add_timer h t)) := by
  rintro ⟨h, t, hmem⟩
  rw [log_since_append h _ _ (add_timer_log h t)] at hmem
  simp [events] at hmem

/-- C5 (amended): `add_timer` on a handler whose mutex the caller does not
hold locks the mutex, inserts the timer into the store with the mutex held, and
unlocks, leaving the mutex released; it does not signal the condition
variable, whatever the pop time of the timer, and it leaves
`_nearest_new_timer` as it was. -/
theorem add_timer_locks_inserts_unlocks (h : Handler) (t : Timer)
    (hfree : h.mutex_held = false) :
    log_since h (add_timer h t) =
        [⟨false, Event.mutex_lock⟩, ⟨true, Event.store_add_timer t⟩,
          ⟨true, Event.mutex_unlock⟩] ∧
      (add_timer h t).mutex_held = false ∧
      Event.cond_signal ∉ events (log_since h (add_timer h t)) ∧
      (add_timer h t).nearest_new_timer = h.nearest_new_timer := by
  have hl := log_since_append h _ _ (add_timer_log h t)
  refine ⟨?_, rfl, ?_, rfl⟩
  · rw [hl, hfree]
  · rw [hl]; simp [events]

/-- C5 (amended), on the handler the constructor leaves. -/
theorem add_timer_locks_inserts_unlocks_witness :
    Handler.init.mutex_held = false ∧
      log_since Handler.init (add_timer Handler.init sample_timer) =
        [⟨false, Event.mutex_lock⟩, ⟨true, Event.store_add_timer sample_timer⟩,
          ⟨true, Event.mutex_unlock⟩] ∧
      (add_timer Handler.init sample_timer).mutex_held = false ∧
      Event.cond_signal ∉
        events (log_since Handler.init (add_timer Handler.init sample_timer)) ∧
      (add_timer Handler.init sample_timer).nearest_new_timer =
        Handler.init.nearest_new_timer :=
  ⟨rfl, add_timer_locks_inserts_unlocks Handler.init sample_timer rfl⟩

/-! ## The run loop -/

theorem loop_body_nonempty (upd : Timer → Timer) (s : RunState) (i : Turn)
    (hne : s.next_timers.isEmpty = false) :
    (loop_body upd s i).h.log =
        s.h.log ++ ⟨s.h.mutex_held, Event.mutex_unlock⟩ ::
          ⟨false, Event.pop_timers s.next_timers⟩ ::
          (s.next_timers.map (pop_entry upd false) ++
            [⟨false, Event.mutex_lock⟩, ⟨true, Event.store_get_next_timers⟩]) ∧
      (loop_body upd s i).h.mutex_held = true ∧
      (loop_body upd s i).next_timers = i.next ∧
      (loop_body upd s i).outcome = s.outcome := by
  obtain ⟨hl, hm, hc⟩ := pop_log upd s.h.unlock s.next_timers
  unfold loop_body
  simp only [hne, Bool.not_false, if_true]
  refine ⟨?_, ?_, ?_, ?_⟩
  · simp only [get_next_timers, Handler.emit, Handler.lock, hl, hm]
    simp [Handler.unlock, Handler.emit]
  · simp [get_next_timers, Handler.emit, Handler.lock]
  · simp [get_next_timers, hc]
  · simp [get_next_timers]

theorem loop_body_empty (upd : Timer → Timer) (s : RunState) (i : Turn)
    (he : s.next_timers.isEmpty = true) :
    (loop_body upd s i).h.log =
        s.h.log ++ [⟨s.h.mutex_held, Event.cond_timedwait (wait_deadline i.clock)⟩,
          ⟨s.h.mutex_held,
            if timedwait_fatal i.rc then Event.exit 2
            else Event.store_get_next_timers⟩] ∧
      (loop_body upd s i).h.mutex_held = s.h.mutex_held ∧
      ((loop_body upd s i).outcome = Outcome.running →
        (loop_body upd s i).next_timers = i.next) ∧
      ((loop_body upd s i).outcome = Outcome.running → s.outcome = Outcome.running) := by
  have hnil : s.next_timers = [] := List.isEmpty_iff.mp he
  unfold loop_body
  simp only [he, Bool.not_true, Bool.false_eq_true, if_false]
  cases hf : timedwait_fatal i.rc <;>
    simp [get_next_timers, Handler.emit, hnil]

theorem loop_body_running (upd : Timer → Timer) (s : RunState) (i : Turn)
    (hheld : s.h.mutex_held = true)
    (hrun : (loop_body upd s i).outcome = Outcome.running) :
    (loop_body upd s i).h.mutex_held = true ∧
      (loop_body upd s i).next_timers = i.next := by
  cases he : s.next_timers.isEmpty with
  | false =>
    obtain ⟨_, h2, h3, _⟩ := loop_body_nonempty upd s i he
    exact ⟨h2, h3⟩
  | true =>
    obtain ⟨_, h2, h3, _⟩ := loop_body_empty upd s i he
    exact ⟨h2.trans hheld, h3 hrun⟩

theorem run_exit_spec (s : RunState) :
    (run_exit s).h.log =
        s.h.log ++ s.next_timers.map (fun t => ⟨s.h.mutex_held, Event.delete_timer t⟩) ++
          [⟨s.h.mutex_held, Event.mutex_unlock⟩] ∧
      (run_exit s).h.mutex_held = false ∧
      (run_exit s).next_timers = [] ∧
      (run_exit s).outcome = Outcome.returned := by
  have key : ∀ (ts : List Timer) (h : Handler),
      (ts.foldl (fun h t => h.emit (Event.delete_timer t)) h).log =
          h.log ++ ts.map (fun t => ⟨h.mutex_held, Event.delete_timer t⟩) ∧
        (ts.foldl (fun h t => h.emit (Event.delete_timer t)) h).mutex_held =
          h.mutex_held := by
    intro ts
    induction ts with
    | nil => intro h; simp
    | cons t ts ih =>
      intro h
      obtain ⟨h1, h2⟩ := ih (h.emit (Event.delete_timer t))
      refine ⟨?_, ?_⟩
      · simp only [List.foldl_cons, h1]; simp [Handler.emit]
      · simp only [List.foldl_cons, h2]; simp [Handler.emit]
  obtain ⟨h1, h2⟩ := key s.next_timers s.h
  refine ⟨?_, rfl, rfl, rfl⟩
  have hu : ∀ h : Handler, h.unlock.log = h.log ++ [⟨h.mutex_held, Event.mutex_unlock⟩] :=
    fun _ => rfl
  rw [show (run_exit s).h =
    (s.next_timers.foldl (fun h t => h.emit (Event.delete_timer t)) s.h).unlock from rfl,
    hu, h1, h2]

theorem run_loop_append (upd : Timer → Timer) (pre rest : List Turn) (s : RunState)
    (hrun : (run_loop upd s pre).outcome = Outcome.running) :
    run_loop upd s (pre ++ rest) = run_loop upd (run_loop upd s pre) rest := by
  induction pre generalizing s with
  | nil => rfl
  | cons i pre ih =>
    simp only [List.cons_append, run_loop] at hrun ⊢
    cases ht : i.terminate with
    | true =>
      simp only [ht, if_true] at hrun
      rw [(run_exit_spec s).2.2.2] at hrun
      cases hrun
    | false =>
      simp only [ht, Bool.false_eq_true, if_false] at hrun ⊢
      cases ho : (loop_body upd s i).outcome with
      | running =>
        simp only [ho] at hrun ⊢
        exact ih _ hrun
      | returned => simp only [ho] at hrun; cases hrun
      | exited c => simp only [ho] at hrun; cases hrun

theorem run_loop_running (upd : Timer → Timer) (script : List Turn) (s : RunState)
    (hheld : s.h.mutex_held = true)
    (hrun : (run_loop upd s script).outcome = Outcome.running) :
    (run_loop upd s script).h.mutex_held = true ∧
      (run_loop upd s script).next_timers = last_batch s.next_timers script := by
  induction script generalizing s with
  | nil => exact ⟨hheld, rfl⟩
  | cons i rest ih =>
    simp only [run_loop] at hrun ⊢
    cases ht : i.terminate with
    | true =>
      simp only [ht, if_true] at hrun
      rw [(run_exit_spec s).2.2.2] at hrun
      cases hrun
    | false =>
      simp only [ht, Bool.false_eq_true, if_false] at hrun ⊢
      cases ho : (loop_body upd s i).outcome with
      | running =>
        simp only [ho] at hrun ⊢
        obtain ⟨hm, hn⟩ := loop_body_running upd s i hheld ho
        obtain ⟨h1, h2⟩ := ih _ hm hrun
        exact ⟨h1, by rw [h2, hn]; rfl⟩
      | returned => simp only [ho] at hrun; cases hrun
      | exited c => simp only [ho] at hrun; cases hrun

theorem run_running (upd : Timer → Timer) (first : List Timer) (script : List Turn)
    (hrun : (run upd first script).outcome = Outcome.running) :
    (run upd first script).h.mutex_held = true ∧
      (run upd first script).next_timers = last_batch first script := by
  have h := run_loop_running upd script
    (get_next_timers
      { h := Handler.init.lock, next_timers := [], outcome := Outcome.running } first)
    rfl hrun
  exact ⟨h.1, by rw [show (run upd first script).next_timers = _ from h.2]; simp [get_next_timers]⟩


/-- C4: when the loop test reads `terminate = true` after a run of turns that
left the thread in the loop, `run` returns: the batch returned by the last
call of `get_next_timers` is deleted timer by timer, exactly as the store
returned it, and left empty, the mutex is released, and nothing else happens:
no timer is passed to `Callback::perform` after the test. -/
theorem run_terminate_releases_batch (upd : Timer → Timer) (first : List Timer)
    (pre : List Turn) (t : Turn) (post : List Turn)
    (hrun : (run upd first pre).outcome = Outcome.running)
    (ht : t.terminate = true) :
    (run upd first (pre ++ t :: post)).outcome = Outcome.returned ∧
      (run upd first (pre ++ t :: post)).h.mutex_held = false ∧
      (run upd first (pre ++ t :: post)).next_timers = [] ∧
      (run upd first pre).next_timers = last_batch first pre ∧
      (run upd first (pre ++ t :: post)).h.log =
        (run upd first pre).h.log ++
          (last_batch first pre).map (fun x => ⟨true, Event.delete_timer x⟩) ++
          [⟨true, Event.mutex_unlock⟩] ∧
      performed (run upd first (pre ++ t :: post)).h.log =
        performed (run upd first pre).h.log := by
  obtain ⟨hheld, hbatch⟩ := run_running upd first pre hrun
  have hstep : run upd first (pre ++ t :: post) = run_exit (run upd first pre) := by
    have h1 : run upd first (pre ++ t :: post) =
        run_loop upd (run upd first pre) (t :: post) :=
      run_loop_append upd pre (t :: post) _ hrun
    rw [h1]
    simp [run_loop, ht]
  obtain ⟨hl, hm, hn, ho⟩ := run_exit_spec (run upd first pre)
  rw [hheld, hbatch] at hl
  have hlog : (run upd first (pre ++ t :: post)).h.log =
      (run upd first pre).h.log ++
        (last_batch first pre).map (fun x => ⟨true, Event.delete_timer x⟩) ++
        [⟨true, Event.mutex_unlock⟩] := by
    rw [hstep, hl]
  refine ⟨by rw [hstep, ho], by rw [hstep, hm], by rw [hstep, hn], hbatch, hlog, ?_⟩
  rw [hlog]
  simp [performed, List.filterMap_append, List.filterMap_map]

/-- C4, on a run that dispatches one batch, receives another and is then told
to terminate. -/
theorem run_terminate_releases_batch_witness :
    (run sample_upd [sample_timer] [⟨false, ⟨5, 0⟩, 0, [sample_tombstone, sample_timer]⟩]).outcome =
        Outcome.running ∧
      (⟨true, ⟨5, 0⟩, 0, []⟩ : Turn).terminate = true ∧
      (run sample_upd [sample_timer]
        ([⟨false, ⟨5, 0⟩, 0, [sample_tombstone, sample_timer]⟩] ++
          ⟨true, ⟨5, 0⟩, 0, []⟩ :: [])).outcome = Outcome.returned ∧
      performed (run sample_upd [sample_timer]
        ([⟨false, ⟨5, 0⟩, 0, [sample_tombstone, sample_timer]⟩] ++
          ⟨true, ⟨5, 0⟩, 0, []⟩ :: [])).h.log =
        performed (run sample_upd [sample_timer]
          [⟨false, ⟨5, 0⟩, 0, [sample_tombstone, sample_timer]⟩]).h.log :=
  ⟨by decide, rfl,
    (run_terminate_releases_batch sample_upd [sample_timer]
      [⟨false, ⟨5, 0⟩, 0, [sample_tombstone, sample_timer]⟩] ⟨true, ⟨5, 0⟩, 0, []⟩ []
      (by decide) rfl).1,
    (run_terminate_releases_batch sample_upd [sample_timer]
      [⟨false, ⟨5, 0⟩, 0, [sample_tombstone, sample_timer]⟩] ⟨true, ⟨5, 0⟩, 0, []⟩ []
      (by decide) rfl).2.2.2.2.2⟩

/-! ## Mutex discipline -/

theorem pop_entry_disciplined (upd : Timer → Timer) (t : Timer) :
    (pop_entry upd false t).disciplined := by
  unfold pop_entry Entry.disciplined
  split <;> simp [Event.is_store_call, Event.is_dispatch]

theorem loop_body_disciplined (upd : Timer → Timer) (s : RunState) (i : Turn)
    (hlog : ∀ e ∈ s.h.log, e.disciplined) (hheld : s.h.mutex_held = true) :
    (∀ e ∈ (loop_body upd s i).h.log, e.disciplined) ∧
      (loop_body upd s i).h.mutex_held = true := by
  cases he : s.next_timers.isEmpty with
  | false =>
    obtain ⟨hl, hm, _, _⟩ := loop_body_nonempty upd s i he
    refine ⟨?_, hm⟩
    intro e hmem
    rw [hl] at hmem
    simp only [List.mem_append, List.mem_cons, List.mem_map, List.mem_singleton,
      List.not_mem_nil, or_false] at hmem
    rcases hmem with h | h | h | ⟨t, _, h⟩ | h | h
    · exact hlog e h
    · subst h; simp [Entry.disciplined, Event.is_store_call, Event.is_dispatch]
    · subst h; simp [Entry.disciplined, Event.is_store_call, Event.is_dispatch]
    · subst h; exact pop_entry_disciplined upd t
    · subst h; simp [Entry.disciplined, Event.is_store_call, Event.is_dispatch]
    · subst h; simp [Entry.disciplined, Event.is_store_call, Event.is_dispatch]
  | true =>
    obtain ⟨hl, hm, _, _⟩ := loop_body_empty upd s i he
    refine ⟨?_, hm.trans hheld⟩
    intro e hmem
    rw [hl, hheld] at hmem
    simp only [List.mem_append, List.mem_cons, List.mem_singleton,
      List.not_mem_nil, or_false] at hmem
    rcases hmem with h | h | h
    · exact hlog e h
    · subst h; simp [Entry.disciplined, Event.is_store_call, Event.is_dispatch]
    · subst h
      cases timedwait_fatal i.rc <;>
        simp [Entry.disciplined, Event.is_store_call, Event.is_dispatch]

theorem run_loop_disciplined (upd : Timer → Timer) (script : List Turn) (s : RunState)
    (hlog : ∀ e ∈ s.h.log, e.disciplined) (hheld : s.h.mutex_held = true) :
    ∀ e ∈ (run_loop upd s script).h.log, e.disciplined := by
  induction script generalizing s with
  | nil => exact hlog
  | cons i rest ih =>
    simp only [run_loop]
    cases ht : i.terminate with
    | true =>
      simp only [if_true]
      intro e hmem
      rw [(run_exit_spec s).1] at hmem
      simp only [List.mem_append, List.mem_map, List.mem_singleton] at hmem
      rcases hmem with (h | ⟨t, _, h⟩) | h
      · exact hlog e h
      · subst h; simp [Entry.disciplined, Event.is_store_call, Event.is_dispatch]
      · subst h; simp [Entry.disciplined, Event.is_store_call, Event.is_dispatch]
    | false =>
      simp only [Bool.false_eq_true, if_false]
      obtain ⟨h1, h2⟩ := loop_body_disciplined upd s i hlog hheld
      cases ho : (loop_body upd s i).outcome with
      | running => simp only [ho]; exact ih _ h1 h2
      | returned => simp only [ho]; exact h1
      | exited c => simp only [ho]; exact h1

theorem run_disciplined (upd : Timer → Timer) (first : List Timer) (script : List Turn) :
    ∀ e ∈ (run upd first script).h.log, e.disciplined := by
  apply run_loop_disciplined upd script
  · intro e hmem
    simp only [get_next_timers, Handler.emit, Handler.lock, Handler.init, List.nil_append,
      List.cons_append, List.mem_cons, List.not_mem_nil, or_false] at hmem
    rcases hmem with h | h <;> subst h <;>
      simp [Entry.disciplined, Event.is_store_call, Event.is_dispatch]
  · rfl


/-- C7: mutex discipline.  In every run of the handler thread each call into
the store is made with the mutex held and each dispatch (`pop` on a batch,
`Callback::perform`) with the mutex released; the mutex is held whenever the
thread stands between two turns of the loop, and a turn entered there that
stays in the loop ends with the mutex held.  Each of the three ingestion
operations, called by a thread that does not hold the mutex, locks once, makes
its one store call with the mutex held, unlocks once, and returns with the
mutex released. -/
theorem mutex_discipline (upd : Timer → Timer) (first : List Timer)
    (script : List Turn) (i : Turn) (h : Handler) (hfree : h.mutex_held = false)
    (t : Timer) (id : Nat) (replica_index : Int) (request_node : String)
    (max_responses : Int) (cluster_view_id : String) (store_rc : Int) :
    (∀ e ∈ (run upd first script).h.log, e.disciplined) ∧
      ((run upd first script).outcome = Outcome.running →
        (run upd first script).h.mutex_held = true ∧
        ((loop_body upd (run upd first script) i).outcome = Outcome.running →
          (loop_body upd (run upd first script) i).h.mutex_held = true)) ∧
      (log_since h (add_timer h t) =
          [⟨false, Event.mutex_lock⟩, ⟨true, Event.store_add_timer t⟩,
            ⟨true, Event.mutex_unlock⟩] ∧
        (add_timer h t).mutex_held = false) ∧
      (log_since h (update_replica_tracker_for_timer h id replica_index) =
          [⟨false, Event.mutex_lock⟩,
            ⟨true, Event.store_update_replica_tracker_for_timer id replica_index⟩,
            ⟨true, Event.mutex_unlock⟩] ∧
        (update_replica_tracker_for_timer h id replica_index).mutex_held = false) ∧
      (log_since h
          (get_timers_for_node h request_node max_responses cluster_view_id store_rc).1 =
          [⟨false, Event.mutex_lock⟩,
            ⟨true, Event.store_get_timers_for_node request_node max_responses
              cluster_view_id⟩,
            ⟨true, Event.mutex_unlock⟩] ∧
        (get_timers_for_node h request_node max_responses cluster_view_id
          store_rc).1.mutex_held = false ∧
        (get_timers_for_node h request_node max_responses cluster_view_id
          store_rc).2 = store_rc) := by
  refine ⟨run_disciplined upd first script, ?_, ?_, ?_, ?_⟩
  · intro hrun
    have hheld := (run_running upd first script hrun).1
    exact ⟨hheld, fun hb => (loop_body_running upd _ i hheld hb).1⟩
  · refine ⟨?_, rfl⟩
    rw [log_since_append h _ _ (add_timer_log h t), hfree]
  · refine ⟨?_, rfl⟩
    apply log_since_append
    simp [update_replica_tracker_for_timer, Handler.lock, Handler.unlock, Handler.emit,
      hfree]
  · refine ⟨?_, rfl, rfl⟩
    apply log_since_append
    simp [get_timers_for_node, Handler.lock, Handler.unlock, Handler.emit, hfree]

/-- C7, on a run of two turns (a dispatch, then an idle wait) and the
ingestion operations called on the handler the constructor leaves. -/
theorem mutex_discipline_witness :
    Handler.init.mutex_held = false ∧
      (run sample_upd [sample_timer, sample_tombstone]
        [⟨false, ⟨5, 0⟩, 0, []⟩, ⟨false, ⟨5, 0⟩, 0, [sample_timer]⟩]).outcome =
        Outcome.running ∧
      (∀ e ∈ (run sample_upd [sample_timer, sample_tombstone]
          [⟨false, ⟨5, 0⟩, 0, []⟩, ⟨false, ⟨5, 0⟩, 0, [sample_timer]⟩]).h.log,
        e.disciplined) ∧
      (run sample_upd [sample_timer, sample_tombstone]
        [⟨false, ⟨5, 0⟩, 0, []⟩, ⟨false, ⟨5, 0⟩, 0, [sample_timer]⟩]).h.mutex_held =
        true ∧
      log_since Handler.init (add_timer Handler.init sample_timer) =
        [⟨false, Event.mutex_lock⟩, ⟨true, Event.store_add_timer sample_timer⟩,
          ⟨true, Event.mutex_unlock⟩] :=
  ⟨rfl, by decide,
    (mutex_discipline sample_upd [sample_timer, sample_tombstone]
      [⟨false, ⟨5, 0⟩, 0, []⟩, ⟨false, ⟨5, 0⟩, 0, [sample_timer]⟩]
      ⟨false, ⟨5, 0⟩, 0, []⟩ Handler.init rfl sample_timer 1 0 "node" 10 "view-1" 200).1,
    ((mutex_discipline sample_upd [sample_timer, sample_tombstone]
      [⟨false, ⟨5, 0⟩, 0, []⟩, ⟨false, ⟨5, 0⟩, 0, [sample_timer]⟩]
      ⟨false, ⟨5, 0⟩, 0, []⟩ Handler.init rfl sample_timer 1 0 "node" 10 "view-1"
      200).2.1 (by decide)).1,
    (mutex_discipline sample_upd [sample_timer, sample_tombstone]
      [⟨false, ⟨5, 0⟩, 0, []⟩, ⟨false, ⟨5, 0⟩, 0, [sample_timer]⟩]
      ⟨false, ⟨5, 0⟩, 0, []⟩ Handler.init rfl sample_timer 1 0 "node" 10 "view-1"
      200).2.2.1.1⟩


end Chronos
